import Mathlib

/-
Shallow embedding of the session-coordination server in src/app.js.
The rules engine (chess.js) is an external collaborator per the spec;
it is modelled as an abstract interface `Engine` over a state type,
with a concrete toy instance used to evaluate witnesses.
Times are Int milliseconds; each inbound event carries one `now`.
-/

namespace ChessSrv

inductive Color where
  | white
  | black
deriving DecidableEq, Repr

def Color.other : Color → Color
  | .white => .black
  | .black => .white

/-- The payload of a move command: {from, to, promotion} per the transport interface. -/
structure MoveData where
  fromSq : String
  toSq : String
  promotion : String
deriving DecidableEq, Repr

/-- Outcome of the external rules engine on a move attempt: a legal move with its
result token and successor state, an illegality (chess.move returning null),
or a raised fault (exception), which leaves the engine state untouched. -/
inductive EngineOutcome (σ : Type) where
  | legal (res : String) (next : σ)
  | illegal
  | fault (msg : String)
deriving DecidableEq, Repr

/-- Abstract interface of the external rules engine (chess.js): initial state,
move attempt, side to move, position notation and derived status flags. -/
structure Engine (σ : Type) where
  init : σ
  move : σ → MoveData → EngineOutcome σ
  turn : σ → Color
  fen : σ → String
  inCheck : σ → Bool
  isCheckmate : σ → Bool
  isDraw : σ → Bool
  isStalemate : σ → Bool
  isGameOver : σ → Bool

/-- One entry of moveHistory: {move: result, fen: chess.fen(), timestamp: Date.now()}. -/
structure HistEntry where
  move : String
  fen : String
  timestamp : Int
deriving DecidableEq, Repr

/-- The ChessGame class state (src/app.js lines 19-103). The activeTimer field is
omitted: it is never assigned a non-null value anywhere in the source, so
stopTimer's clearInterval branch is dead code. -/
structure ChessGame (σ : Type) where
  gameId : String
  chess : σ
  whitePlayer : Option String
  blackPlayer : Option String
  spectators : List String
  moveHistory : List HistEntry
  gameStartTime : Int
  whiteTimer : Int
  blackTimer : Int
  lastMoveTime : Int
deriving DecidableEq, Repr

/-- The ChessGame constructor: timers start at 600000 ms each. -/
def ChessGame.new (E : Engine σ) (gameId : String) (now : Int) : ChessGame σ :=
  { gameId := gameId
    chess := E.init
    whitePlayer := none
    blackPlayer := none
    spectators := []
    moveHistory := []
    gameStartTime := now
    whiteTimer := 600000
    blackTimer := 600000
    lastMoveTime := now }

def ChessGame.addPlayer (g : ChessGame σ) (sid : String) (c : Color) : ChessGame σ :=
  match c with
  | .white => { g with whitePlayer := some sid }
  | .black => { g with blackPlayer := some sid }

/-- Spectators are a JS Set: adding an existing member is a no-op. -/
def ChessGame.addSpectator (g : ChessGame σ) (sid : String) : ChessGame σ :=
  if g.spectators.contains sid then g
  else { g with spectators := g.spectators ++ [sid] }

/-- removePlayer: vacate white if it is sid, else black if it is sid,
else delete sid from the spectator set. -/
def ChessGame.removePlayer (g : ChessGame σ) (sid : String) : ChessGame σ :=
  if g.whitePlayer = some sid then { g with whitePlayer := none }
  else if g.blackPlayer = some sid then { g with blackPlayer := none }
  else { g with spectators := g.spectators.filter (fun x => x ≠ sid) }

/-- updateTimer: elapsed = now - lastMoveTime; the side charged is derived from
the post-move turn (chess.turn() = w means black just moved, and vice versa);
lastMoveTime is set to now. -/
def ChessGame.updateTimer (E : Engine σ) (g : ChessGame σ) (now : Int) : ChessGame σ :=
  let elapsed := now - g.lastMoveTime
  if E.turn g.chess = .white then
    { g with blackTimer := g.blackTimer - elapsed, lastMoveTime := now }
  else
    { g with whiteTimer := g.whiteTimer - elapsed, lastMoveTime := now }

/-- startTimer only records lastMoveTime = now. -/
def ChessGame.startTimer (g : ChessGame σ) (now : Int) : ChessGame σ :=
  { g with lastMoveTime := now }

/-- makeMove: attempt the move on the engine; on a legal result push a history
entry and run updateTimer; on null (illegal) change nothing; a raised engine
fault propagates to the caller as an error. -/
def ChessGame.makeMove (E : Engine σ) (g : ChessGame σ) (mv : MoveData) (now : Int) :
    Except String (Option String × ChessGame σ) :=
  match E.move g.chess mv with
  | .fault msg => .error msg
  | .illegal => .ok (none, g)
  | .legal res next =>
      let g1 : ChessGame σ :=
        { g with chess := next
                 moveHistory := g.moveHistory ++ [⟨res, E.fen next, now⟩] }
      .ok (some res, g1.updateTimer E now)

/-- The object returned by getGameState. -/
structure GameState where
  fen : String
  turn : Color
  isCheck : Bool
  isCheckmate : Bool
  isDraw : Bool
  isStalemate : Bool
  isGameOver : Bool
  moveHistory : List HistEntry
  whiteTimer : Int
  blackTimer : Int
  whitePlayer : Option String
  blackPlayer : Option String
deriving DecidableEq, Repr

def ChessGame.getGameState (E : Engine σ) (g : ChessGame σ) : GameState :=
  { fen := E.fen g.chess
    turn := E.turn g.chess
    isCheck := E.inCheck g.chess
    isCheckmate := E.isCheckmate g.chess
    isDraw := E.isDraw g.chess
    isStalemate := E.isStalemate g.chess
    isGameOver := E.isGameOver g.chess
    moveHistory := g.moveHistory
    whiteTimer := g.whiteTimer
    blackTimer := g.blackTimer
    whitePlayer := g.whitePlayer
    blackPlayer := g.blackPlayer }

/-- Association-list lookup, modelling Map.get. -/
def lookupA (l : List (String × α)) (k : String) : Option α :=
  match l with
  | [] => none
  | (k2, v) :: rest => if k2 = k then some v else lookupA rest k

/-- Association-list update or insert, modelling Map.set. -/
def setA (l : List (String × α)) (k : String) (v : α) : List (String × α) :=
  match l with
  | [] => [(k, v)]
  | (k2, v2) :: rest => if k2 = k then (k, v) :: rest else (k2, v2) :: setA rest k v

/-- Association-list removal, modelling Map.delete. -/
def delA (l : List (String × α)) (k : String) : List (String × α) :=
  match l with
  | [] => []
  | (k2, v) :: rest => if k2 = k then delA rest k else (k2, v) :: delA rest k

/-- The per-connection closure state of the io.on('connection') handler:
let currentGame (stored as the game id the reference points to) and
let playerRole. Both start null; playerRole is only ever assigned in the
white and black join branches, so a joiner sent to the spectator branch
keeps its previous role value. -/
structure ConnCtx where
  currentGame : Option String
  playerRole : Option Color
deriving DecidableEq, Repr

def ConnCtx.initial : ConnCtx := { currentGame := none, playerRole := none }

/-- Whole-server state: the games registry plus every connection's closure state. -/
structure ServerState (σ : Type) where
  games : List (String × ChessGame σ)
  conns : List (String × ConnCtx)
deriving DecidableEq, Repr

def ServerState.empty : ServerState σ := { games := [], conns := [] }

def ServerState.ctxOf (s : ServerState σ) (sid : String) : ConnCtx :=
  (lookupA s.conns sid).getD ConnCtx.initial

/-- Server-to-client events (the payloads the handlers emit). -/
inductive ServerEvent where
  | playerRole (role : Color)
  | spectatorRole
  | gameState (st : GameState)
  | gameStart
  | playersUpdate (white : Bool) (black : Bool) (spectators : Nat)
  | moveMade (res : String) (st : GameState)
  | gameOver (result : String) (winner : Option Color) (reason : Option String)
  | check (player : Color)
  | invalidMove (reason : String) (mv : MoveData)
  | drawOffered (fromRole : Color)
  | rematchRequested (fromRole : Option Color)
  | gameReset (st : GameState)
  | chatMessage (sender : String) (message : String) (timestamp : Int)
  | playerDisconnected (role : Option Color)
deriving DecidableEq, Repr

/-- An emission: socket.emit / io.to(socketId) unicasts, io.to(gameId) broadcasts. -/
inductive Output where
  | emit (sid : String) (ev : ServerEvent)
  | broadcast (room : String) (ev : ServerEvent)
deriving DecidableEq, Repr

/-- The inbound commands a connection can send (disconnect included as an event). -/
inductive Command where
  | joinGame (gid : String)
  | move (mv : MoveData)
  | resign
  | offerDraw
  | acceptDraw
  | requestRematch
  | acceptRematch
  | chatMessage (text : String)
  | disconnect
deriving DecidableEq, Repr

/-- The joinGame handler (src/app.js lines 132-168): create the game lazily,
assign a role by slot order (white if free, else black if free, else
spectator), start the clock and broadcast gameStart on the black fill,
then send gameState to the joiner and playersUpdate to the room. -/
def handleJoinGame (E : Engine σ) (s : ServerState σ) (sid gid : String) (now : Int) :
    ServerState σ × List Output :=
  let g0 := match lookupA s.games gid with
            | some g => g
            | none => ChessGame.new E gid now
  let ctx := s.ctxOf sid
  match g0.whitePlayer with
  | none =>
      let g1 := g0.addPlayer sid .white
      let s1 : ServerState σ :=
        { games := setA s.games gid g1
          conns := setA s.conns sid { currentGame := some gid, playerRole := some .white } }
      (s1, [Output.emit sid (.playerRole .white),
            Output.emit sid (.gameState (g1.getGameState E)),
            Output.broadcast gid (.playersUpdate g1.whitePlayer.isSome g1.blackPlayer.isSome
              g1.spectators.length)])
  | some _ =>
      match g0.blackPlayer with
      | none =>
          let g1 := (g0.addPlayer sid .black).startTimer now
          let s1 : ServerState σ :=
            { games := setA s.games gid g1
              conns := setA s.conns sid { currentGame := some gid, playerRole := some .black } }
          (s1, [Output.emit sid (.playerRole .black),
                Output.broadcast gid .gameStart,
                Output.emit sid (.gameState (g1.getGameState E)),
                Output.broadcast gid (.playersUpdate g1.whitePlayer.isSome g1.blackPlayer.isSome
                  g1.spectators.length)])
      | some _ =>
          let g1 := g0.addSpectator sid
          let s1 : ServerState σ :=
            { games := setA s.games gid g1
              conns := setA s.conns sid { currentGame := some gid, playerRole := ctx.playerRole } }
          (s1, [Output.emit sid .spectatorRole,
                Output.emit sid (.gameState (g1.getGameState E)),
                Output.broadcast gid (.playersUpdate g1.whitePlayer.isSome g1.blackPlayer.isSome
                  g1.spectators.length)])

/-- The move handler (src/app.js lines 170-215): no game, silent return; wrong
turn, invalidMove to the sender only; otherwise delegate to makeMove inside
try/catch and on success broadcast moveMade plus at most one of
gameOver(checkmate), gameOver(draw), or check. The checkmate winner label uses
the pre-move turn exactly as the source does. -/
def handleMove (E : Engine σ) (s : ServerState σ) (sid : String) (mv : MoveData) (now : Int) :
    ServerState σ × List Output :=
  let ctx := s.ctxOf sid
  match ctx.currentGame with
  | none => (s, [])
  | some gid =>
      match lookupA s.games gid with
      | none => (s, [])
      | some g =>
          let turn := E.turn g.chess
          let isPlayerTurn := (turn = .white ∧ ctx.playerRole = some .white) ∨
                              (turn = .black ∧ ctx.playerRole = some .black)
          if ¬ isPlayerTurn then
            (s, [Output.emit sid (.invalidMove "Not your turn" mv)])
          else
            match g.makeMove E mv now with
            | .error msg => (s, [Output.emit sid (.invalidMove msg mv)])
            | .ok (none, _) => (s, [Output.emit sid (.invalidMove "Illegal move" mv)])
            | .ok (some res, g1) =>
                let st := g1.getGameState E
                let tail :=
                  if st.isCheckmate then
                    [Output.broadcast gid (.gameOver "checkmate"
                      (some (if turn = .white then Color.black else Color.white)) none)]
                  else if st.isDraw || st.isStalemate then
                    [Output.broadcast gid (.gameOver "draw" none
                      (some (if st.isStalemate then "stalemate" else "draw")))]
                  else if st.isCheck then
                    [Output.broadcast gid (.check (E.turn g1.chess))]
                  else []
                ({ s with games := setA s.games gid g1 },
                 Output.broadcast gid (.moveMade res st) :: tail)

/-- The resign handler (src/app.js lines 217-225): silently ignored without a
game or a player role; otherwise broadcasts gameOver(resignation, opponent). -/
def handleResign (E : Engine σ) (s : ServerState σ) (sid : String) :
    ServerState σ × List Output :=
  let ctx := s.ctxOf sid
  match ctx.currentGame, ctx.playerRole with
  | some gid, some role =>
      (s, [Output.broadcast gid (.gameOver "resignation" (some role.other) none)])
  | _, _ => (s, [])

/-- The offerDraw handler (src/app.js lines 227-234): silently ignored without a
game or a player role; otherwise unicasts drawOffered to the opponent slot
holder, if any. -/
def handleOfferDraw (E : Engine σ) (s : ServerState σ) (sid : String) :
    ServerState σ × List Output :=
  let ctx := s.ctxOf sid
  match ctx.currentGame, ctx.playerRole with
  | some gid, some role =>
      match lookupA s.games gid with
      | none => (s, [])
      | some g =>
          let opponent := if role = .white then g.blackPlayer else g.whitePlayer
          match opponent with
          | some oid => (s, [Output.emit oid (.drawOffered role)])
          | none => (s, [])
  | _, _ => (s, [])

/-- The acceptDraw handler (src/app.js lines 236-243): the only precondition is
a current game; broadcasts gameOver(draw, reason agreement) and mutates nothing. -/
def handleAcceptDraw (E : Engine σ) (s : ServerState σ) (sid : String) :
    ServerState σ × List Output :=
  let ctx := s.ctxOf sid
  match ctx.currentGame with
  | none => (s, [])
  | some gid => (s, [Output.broadcast gid (.gameOver "draw" none (some "agreement"))])

/-- The requestRematch handler (src/app.js lines 245-252): requires only a
current game; the opponent lookup reads players.black when the sender's role
is white and players.white otherwise (also when the role is null). -/
def handleRequestRematch (E : Engine σ) (s : ServerState σ) (sid : String) :
    ServerState σ × List Output :=
  let ctx := s.ctxOf sid
  match ctx.currentGame with
  | none => (s, [])
  | some gid =>
      match lookupA s.games gid with
      | none => (s, [])
      | some g =>
          let opponent := if ctx.playerRole = some .white then g.blackPlayer else g.whitePlayer
          match opponent with
          | some oid => (s, [Output.emit oid (.rematchRequested ctx.playerRole)])
          | none => (s, [])

/-- The acceptRematch handler (src/app.js lines 254-263): requires only a
current game; resets the engine state, clears moveHistory, resets both timers
to 600000 ms, restarts the clock (lastMoveTime = now) and broadcasts gameReset. -/
def handleAcceptRematch (E : Engine σ) (s : ServerState σ) (sid : String) (now : Int) :
    ServerState σ × List Output :=
  let ctx := s.ctxOf sid
  match ctx.currentGame with
  | none => (s, [])
  | some gid =>
      match lookupA s.games gid with
      | none => (s, [])
      | some g =>
          let g1 : ChessGame σ :=
            { g with chess := E.init
                     moveHistory := []
                     whiteTimer := 600000
                     blackTimer := 600000
                     lastMoveTime := now }
          ({ s with games := setA s.games gid g1 },
           [Output.broadcast gid (.gameReset (g1.getGameState E))])

/-- The chatMessage handler (src/app.js lines 265-273). -/
def handleChatMessage (E : Engine σ) (s : ServerState σ) (sid : String) (text : String)
    (now : Int) : ServerState σ × List Output :=
  let ctx := s.ctxOf sid
  match ctx.currentGame with
  | none => (s, [])
  | some gid =>
      let sender := match ctx.playerRole with
                    | some .white => "w"
                    | some .black => "b"
                    | none => "spectator"
      (s, [Output.broadcast gid (.chatMessage sender text now)])

/-- The disconnect handler (src/app.js lines 275-297): vacate the connection's
slot (or spectator entry), broadcast playerDisconnected and playersUpdate,
then delete the game from the registry iff both slots and the spectator set
are empty. The connection's closure state dies with the socket. -/
def handleDisconnect (E : Engine σ) (s : ServerState σ) (sid : String) :
    ServerState σ × List Output :=
  let ctx := s.ctxOf sid
  match ctx.currentGame with
  | none => ({ s with conns := delA s.conns sid }, [])
  | some gid =>
      match lookupA s.games gid with
      | none => ({ s with conns := delA s.conns sid }, [])
      | some g =>
          let g1 := g.removePlayer sid
          let outs := [Output.broadcast gid (.playerDisconnected ctx.playerRole),
                       Output.broadcast gid (.playersUpdate g1.whitePlayer.isSome
                         g1.blackPlayer.isSome g1.spectators.length)]
          if g1.whitePlayer = none ∧ g1.blackPlayer = none ∧ g1.spectators = [] then
            ({ games := delA s.games gid, conns := delA s.conns sid }, outs)
          else
            ({ games := setA s.games gid g1, conns := delA s.conns sid }, outs)

/-- One dispatch step of the single-threaded event loop. -/
def step (E : Engine σ) (s : ServerState σ) (sid : String) (c : Command) (now : Int) :
    ServerState σ × List Output :=
  match c with
  | .joinGame gid => handleJoinGame E s sid gid now
  | .move mv => handleMove E s sid mv now
  | .resign => handleResign E s sid
  | .offerDraw => handleOfferDraw E s sid
  | .acceptDraw => handleAcceptDraw E s sid
  | .requestRematch => handleRequestRematch E s sid
  | .acceptRematch => handleAcceptRematch E s sid now
  | .chatMessage text => handleChatMessage E s sid text now
  | .disconnect => handleDisconnect E s sid

/-- Run a sequence of inbound events, accumulating all emissions. -/
def run (E : Engine σ) (s : ServerState σ) :
    List (String × Command × Int) → ServerState σ × List Output
  | [] => (s, [])
  | (sid, c, now) :: rest =>
      let p := step E s sid c now
      let q := run E p.1 rest
      (q.1, p.2 ++ q.2)

/-- States reachable by the event loop from the empty server. -/
inductive Reachable (E : Engine σ) : ServerState σ → Prop where
  | init : Reachable E ServerState.empty
  | next {s : ServerState σ} (sid : String) (c : Command) (now : Int) :
      Reachable E s → Reachable E (step E s sid c now).1

/-- Interface contract the external rules engine is relied on for: the initial
position has White to move, and every accepted move flips the side to move.
chess.js satisfies both. -/
def Engine.TurnFaithful (E : Engine σ) : Prop :=
  E.turn E.init = .white ∧
  ∀ st mv res st2, E.move st mv = .legal res st2 → E.turn st2 = (E.turn st).other

/-- A small concrete engine used to evaluate the theorems on closed inputs:
its state counts accepted moves, a move is a fault when fromSq = "fault",
illegal when fromSq = "illegal", and legal otherwise. -/
def toyEngine : Engine Nat :=
  { init := 0
    move := fun n mv =>
      if mv.fromSq = "fault" then .fault "boom"
      else if mv.fromSq = "illegal" then .illegal
      else .legal (mv.fromSq ++ mv.toSq) (n + 1)
    turn := fun n => if n % 2 = 0 then .white else .black
    fen := fun n => toString n
    inCheck := fun _ => false
    isCheckmate := fun _ => false
    isDraw := fun _ => false
    isStalemate := fun _ => false
    isGameOver := fun _ => false }

theorem toyEngine_TurnFaithful : toyEngine.TurnFaithful := by
  refine ⟨rfl, ?_⟩
  intro st mv res st2 h
  simp only [toyEngine] at h ⊢
  split at h
  · cases h
  · split at h
    · cases h
    · cases h
      rcases Nat.mod_two_eq_zero_or_one st with h2 | h2 <;>
        simp [Nat.add_mod, h2, Color.other]

theorem lookupA_setA (l : List (String × α)) (k k2 : String) (v : α) :
    lookupA (setA l k v) k2 = if k = k2 then some v else lookupA l k2 := by
  induction l with
  | nil => simp [setA, lookupA]
  | cons p rest ih =>
      obtain ⟨k1, v1⟩ := p
      by_cases h1 : k1 = k
      · subst h1
        simp only [setA, if_pos rfl, lookupA]
        by_cases h3 : k1 = k2 <;> simp [h3]
      · simp only [setA, if_neg h1, lookupA, ih]
        by_cases h3 : k1 = k2 <;> by_cases h4 : k = k2
        · exact absurd (h4.trans h3.symm).symm h1
        · simp [h3, h4]
        · simp [h3, h4]
        · simp [h3, h4]

theorem lookupA_delA (l : List (String × α)) (k k2 : String) :
    lookupA (delA l k) k2 = if k = k2 then none else lookupA l k2 := by
  induction l with
  | nil => simp [delA, lookupA]
  | cons p rest ih =>
      obtain ⟨k1, v1⟩ := p
      by_cases h1 : k1 = k
      · subst h1
        simp only [delA, if_pos rfl, lookupA]
        by_cases h3 : k1 = k2
        · subst h3; simp [ih]
        · simp [h3, ih]
      · simp only [delA, if_neg h1, lookupA, ih]
        by_cases h3 : k1 = k2 <;> by_cases h4 : k = k2
        · exact absurd (h4.trans h3.symm).symm h1
        · simp [h3, h4]
        · simp [h3, h4]
        · simp [h3, h4]

@[simp]
theorem addPlayer_chess (g : ChessGame σ) (sid : String) (c : Color) :
    (g.addPlayer sid c).chess = g.chess := by
  cases c <;> rfl

@[simp]
theorem addPlayer_moveHistory (g : ChessGame σ) (sid : String) (c : Color) :
    (g.addPlayer sid c).moveHistory = g.moveHistory := by
  cases c <;> rfl

@[simp]
theorem addSpectator_chess (g : ChessGame σ) (sid : String) :
    (g.addSpectator sid).chess = g.chess := by
  unfold ChessGame.addSpectator; split <;> rfl

@[simp]
theorem addSpectator_moveHistory (g : ChessGame σ) (sid : String) :
    (g.addSpectator sid).moveHistory = g.moveHistory := by
  unfold ChessGame.addSpectator; split <;> rfl

@[simp]
theorem removePlayer_chess (g : ChessGame σ) (sid : String) :
    (g.removePlayer sid).chess = g.chess := by
  unfold ChessGame.removePlayer; split <;> [rfl; split <;> rfl]

@[simp]
theorem removePlayer_moveHistory (g : ChessGame σ) (sid : String) :
    (g.removePlayer sid).moveHistory = g.moveHistory := by
  unfold ChessGame.removePlayer; split <;> [rfl; split <;> rfl]

@[simp]
theorem startTimer_chess (g : ChessGame σ) (now : Int) :
    (g.startTimer now).chess = g.chess := rfl

@[simp]
theorem startTimer_moveHistory (g : ChessGame σ) (now : Int) :
    (g.startTimer now).moveHistory = g.moveHistory := rfl

@[simp]
theorem updateTimer_chess (E : Engine σ) (g : ChessGame σ) (now : Int) :
    (g.updateTimer E now).chess = g.chess := by
  unfold ChessGame.updateTimer; split <;> rfl

@[simp]
theorem updateTimer_moveHistory (E : Engine σ) (g : ChessGame σ) (now : Int) :
    (g.updateTimer E now).moveHistory = g.moveHistory := by
  unfold ChessGame.updateTimer; split <;> rfl

@[simp]
theorem updateTimer_lastMoveTime (E : Engine σ) (g : ChessGame σ) (now : Int) :
    (g.updateTimer E now).lastMoveTime = now := by
  unfold ChessGame.updateTimer; split <;> rfl

/-- Turn parity of a single game: White to move iff the move log has even length. -/
def parityOk (E : Engine σ) (g : ChessGame σ) : Prop :=
  E.turn g.chess = .white ↔ g.moveHistory.length % 2 = 0

theorem parityOk_of_eq {E : Engine σ} {g g1 : ChessGame σ}
    (hc : g1.chess = g.chess) (hm : g1.moveHistory = g.moveHistory) :
    parityOk E g → parityOk E g1 := by
  intro hp; unfold parityOk at hp ⊢; rw [hc, hm]; exact hp

theorem parityOk_new {E : Engine σ} (hE : E.TurnFaithful) (gid : String) (now : Int) :
    parityOk E (ChessGame.new E gid now) := by
  simp [parityOk, ChessGame.new, hE.1]

/-- Inversion of a rejected makeMove: the game is returned untouched. -/
theorem makeMove_ok_none {E : Engine σ} {g : ChessGame σ} {mv : MoveData} {now : Int}
    {g1 : ChessGame σ} (h : g.makeMove E mv now = .ok (none, g1)) : g1 = g := by
  unfold ChessGame.makeMove at h
  split at h
  · cases h
  · simp at h; exact h.symm
  · simp at h

/-- Inversion of an accepted makeMove: the engine accepted, one history entry
was appended, and updateTimer ran on the result. -/
theorem makeMove_ok_some {E : Engine σ} {g : ChessGame σ} {mv : MoveData} {now : Int}
    {res : String} {g1 : ChessGame σ} (h : g.makeMove E mv now = .ok (some res, g1)) :
    ∃ next, E.move g.chess mv = .legal res next ∧
      g1 = ChessGame.updateTimer E
        { g with chess := next,
                 moveHistory := g.moveHistory ++ [⟨res, E.fen next, now⟩] } now := by
  unfold ChessGame.makeMove at h
  split at h
  · cases h
  · simp at h
  next r0 next0 heq =>
    simp at h
    obtain ⟨hr, hg⟩ := h
    subst hr
    exact ⟨next0, heq, hg.symm⟩

theorem parityOk_makeMove {E : Engine σ} (hE : E.TurnFaithful) {g : ChessGame σ}
    {mv : MoveData} {now : Int} {out : Option String} {g1 : ChessGame σ}
    (h : g.makeMove E mv now = .ok (out, g1)) (hp : parityOk E g) : parityOk E g1 := by
  cases out with
  | none => rw [makeMove_ok_none h]; exact hp
  | some res =>
      obtain ⟨next, hlegal, hg1⟩ := makeMove_ok_some h
      have hturn : E.turn next = (E.turn g.chess).other := hE.2 _ _ _ _ hlegal
      subst hg1
      unfold parityOk at hp ⊢
      simp only [updateTimer_chess, updateTimer_moveHistory, List.length_append,
        List.length_cons, List.length_nil]
      rw [hturn]
      cases hcol : E.turn g.chess <;> simp [hcol, Color.other] at hp ⊢ <;> omega

/-- The parity invariant over every registered game of a server state. -/
def GamesParity (E : Engine σ) (s : ServerState σ) : Prop :=
  ∀ gid g, lookupA s.games gid = some g → parityOk E g

theorem gamesParity_join {E : Engine σ} (hE : E.TurnFaithful) {s : ServerState σ}
    (h : GamesParity E s) (sid gid0 : String) (now : Int) :
    GamesParity E (handleJoinGame E s sid gid0 now).1 := by
  intro gid g hg
  unfold handleJoinGame at hg
  rcases hl0 : lookupA s.games gid0 with _ | gg <;> rw [hl0] at hg
  · simp only [ChessGame.new, ChessGame.addPlayer] at hg
    rw [lookupA_setA] at hg
    split at hg
    · cases hg
      exact parityOk_of_eq (by simp [ChessGame.new]) (by simp [ChessGame.new])
        (parityOk_new hE gid0 now)
    · exact h gid g hg
  · have hgg : parityOk E gg := h gid0 gg hl0
    simp only [] at hg
    split at hg
    · simp only [] at hg
      rw [lookupA_setA] at hg
      split at hg
      · cases hg; exact parityOk_of_eq (by simp) (by simp) hgg
      · exact h gid g hg
    · split at hg
      · simp only [] at hg
        rw [lookupA_setA] at hg
        split at hg
        · cases hg; exact parityOk_of_eq (by simp) (by simp) hgg
        · exact h gid g hg
      · simp only [] at hg
        rw [lookupA_setA] at hg
        split at hg
        · cases hg; exact parityOk_of_eq (by simp) (by simp) hgg
        · exact h gid g hg

theorem gamesParity_move {E : Engine σ} (hE : E.TurnFaithful) {s : ServerState σ}
    (h : GamesParity E s) (sid : String) (mv : MoveData) (now : Int) :
    GamesParity E (handleMove E s sid mv now).1 := by
  intro gid g hg
  unfold handleMove at hg
  simp only [] at hg
  split at hg
  · exact h gid g hg
  · split at hg
    · exact h gid g hg
    next gg hl =>
      split at hg
      · exact h gid g hg
      · split at hg
        · exact h gid g hg
        · exact h gid g hg
        next res g1 hmk =>
          simp only [] at hg
          rw [lookupA_setA] at hg
          split at hg
          next he =>
            cases hg
            exact parityOk_makeMove hE hmk (h _ gg hl)
          · exact h gid g hg

theorem gamesParity_resign {E : Engine σ} {s : ServerState σ}
    (h : GamesParity E s) (sid : String) :
    GamesParity E (handleResign E s sid).1 := by
  intro gid g hg
  unfold handleResign at hg
  simp only [] at hg
  split at hg <;> exact h gid g hg

theorem gamesParity_offerDraw {E : Engine σ} {s : ServerState σ}
    (h : GamesParity E s) (sid : String) :
    GamesParity E (handleOfferDraw E s sid).1 := by
  intro gid g hg
  unfold handleOfferDraw at hg
  simp only [] at hg
  split at hg
  · split at hg
    · exact h gid g hg
    · split at hg <;> exact h gid g hg
  · exact h gid g hg

theorem gamesParity_acceptDraw {E : Engine σ} {s : ServerState σ}
    (h : GamesParity E s) (sid : String) :
    GamesParity E (handleAcceptDraw E s sid).1 := by
  intro gid g hg
  unfold handleAcceptDraw at hg
  simp only [] at hg
  split at hg <;> exact h gid g hg

theorem gamesParity_requestRematch {E : Engine σ} {s : ServerState σ}
    (h : GamesParity E s) (sid : String) :
    GamesParity E (handleRequestRematch E s sid).1 := by
  intro gid g hg
  unfold handleRequestRematch at hg
  simp only [] at hg
  split at hg
  · exact h gid g hg
  · split at hg
    · exact h gid g hg
    · split at hg <;> exact h gid g hg

theorem gamesParity_acceptRematch {E : Engine σ} (hE : E.TurnFaithful) {s : ServerState σ}
    (h : GamesParity E s) (sid : String) (now : Int) :
    GamesParity E (handleAcceptRematch E s sid now).1 := by
  intro gid g hg
  unfold handleAcceptRematch at hg
  simp only [] at hg
  split at hg
  · exact h gid g hg
  · split at hg
    · exact h gid g hg
    · simp only [] at hg
      rw [lookupA_setA] at hg
      split at hg
      · cases hg
        simp [parityOk, hE.1]
      · exact h gid g hg

theorem gamesParity_chat {E : Engine σ} {s : ServerState σ}
    (h : GamesParity E s) (sid : String) (text : String) (now : Int) :
    GamesParity E (handleChatMessage E s sid text now).1 := by
  intro gid g hg
  unfold handleChatMessage at hg
  simp only [] at hg
  split at hg <;> exact h gid g hg

theorem gamesParity_disconnect {E : Engine σ} {s : ServerState σ}
    (h : GamesParity E s) (sid : String) :
    GamesParity E (handleDisconnect E s sid).1 := by
  intro gid g hg
  unfold handleDisconnect at hg
  simp only [] at hg
  split at hg
  · exact h gid g hg
  · split at hg
    · exact h gid g hg
    next gg hl =>
      split at hg
      · simp only [] at hg
        rw [lookupA_delA] at hg
        split at hg
        · cases hg
        · exact h gid g hg
      · simp only [] at hg
        rw [lookupA_setA] at hg
        split at hg
        · cases hg; exact parityOk_of_eq (by simp) (by simp) (h _ gg hl)
        · exact h gid g hg

theorem gamesParity_step {E : Engine σ} (hE : E.TurnFaithful) {s : ServerState σ}
    (h : GamesParity E s) (sid : String) (c : Command) (now : Int) :
    GamesParity E (step E s sid c now).1 := by
  cases c with
  | joinGame gid0 => exact gamesParity_join hE h sid gid0 now
  | move mv => exact gamesParity_move hE h sid mv now
  | resign => exact gamesParity_resign h sid
  | offerDraw => exact gamesParity_offerDraw h sid
  | acceptDraw => exact gamesParity_acceptDraw h sid
  | requestRematch => exact gamesParity_requestRematch h sid
  | acceptRematch => exact gamesParity_acceptRematch hE h sid now
  | chatMessage text => exact gamesParity_chat h sid text now
  | disconnect => exact gamesParity_disconnect h sid

theorem gamesParity_reachable {E : Engine σ} (hE : E.TurnFaithful) {s : ServerState σ}
    (h : Reachable E s) : GamesParity E s := by
  induction h with
  | init => intro gid g hg; cases hg
  | next sid c now _ ih => exact gamesParity_step hE ih sid c now

/-- A legal-looking move payload for the toy engine. -/
def mvE2E4 : MoveData := { fromSq := "e2", toSq := "e4", promotion := "" }

/-- A payload the toy engine rejects as illegal. -/
def mvIllegal : MoveData := { fromSq := "illegal", toSq := "e4", promotion := "" }

/-- A payload that makes the toy engine raise a fault. -/
def mvFault : MoveData := { fromSq := "fault", toSq := "e4", promotion := "" }

/-- The concrete game produced by playing mvE2E4 at time 5 on a fresh game
created at time 0 with the toy engine. -/
def c2wGame1 : ChessGame Nat :=
  { gameId := "g", chess := 1, whitePlayer := none, blackPlayer := none,
    spectators := [], moveHistory := [⟨"e2e4", "1", 5⟩], gameStartTime := 0,
    whiteTimer := 599995, blackTimer := 600000, lastMoveTime := 5 }

/-- C2: turn-parity invariant. In every reachable server state, every registered
game has White to move iff its move log length is even; and every accepted
move appends exactly one entry to the move log and flips the side to move.
Both parts assume the engine interface contract (initial turn White, accepted
moves flip the turn), which chess.js provides. -/
theorem C2_turn_parity {σ : Type} (E : Engine σ) (hE : E.TurnFaithful) :
    (∀ s : ServerState σ, Reachable E s → ∀ gid g, lookupA s.games gid = some g →
      (E.turn g.chess = Color.white ↔ g.moveHistory.length % 2 = 0)) ∧
    (∀ (g : ChessGame σ) (mv : MoveData) (now : Int) (res : String) (g1 : ChessGame σ),
      g.makeMove E mv now = .ok (some res, g1) →
      g1.moveHistory.length = g.moveHistory.length + 1 ∧
      E.turn g1.chess = (E.turn g.chess).other) := by
  constructor
  · intro s hs gid g hg
    have hp := gamesParity_reachable hE hs gid g hg
    unfold parityOk at hp
    exact hp
  · intro g mv now res g1 h
    obtain ⟨next, hlegal, hg1⟩ := makeMove_ok_some h
    subst hg1
    refine ⟨by simp, ?_⟩
    simp only [updateTimer_chess]
    exact hE.2 _ _ _ _ hlegal

/-- Witness for C2: evaluates both parts on the toy engine, at the reachable
state where connection A has joined session g, and at a concrete accepted move. -/
theorem C2_witness :
    (toyEngine.turn ((ChessGame.new toyEngine "g" 0).addPlayer "A" Color.white).chess
        = Color.white ↔
      ((ChessGame.new toyEngine "g" 0).addPlayer "A" Color.white).moveHistory.length % 2 = 0) ∧
    (c2wGame1.moveHistory.length = (ChessGame.new toyEngine "g" 0).moveHistory.length + 1 ∧
      toyEngine.turn c2wGame1.chess = (toyEngine.turn (ChessGame.new toyEngine "g" 0).chess).other) := by
  constructor
  · exact (C2_turn_parity toyEngine toyEngine_TurnFaithful).1 _
      (Reachable.next "A" (Command.joinGame "g") 0 Reachable.init) "g" _ rfl
  · exact (C2_turn_parity toyEngine toyEngine_TurnFaithful).2
      (ChessGame.new toyEngine "g" 0) mvE2E4 5 "e2e4" c2wGame1 rfl

/-- C1 (amended): a move from a joined connection whose role is not the side to
move is rejected by sending invalidMove with reason "Not your turn" (capital N,
unlike the spec's literal "not your turn") to that connection only; the server
state, move log, board and both clocks are returned unchanged, and repeating
the command from the resulting state yields the identical state and reply. -/
theorem C1_not_your_turn {σ : Type} (E : Engine σ) (s : ServerState σ)
    (sid gid : String) (g : ChessGame σ) (mv : MoveData) (now now2 : Int)
    (hg : (s.ctxOf sid).currentGame = some gid)
    (hl : lookupA s.games gid = some g)
    (hr : ¬ ((E.turn g.chess = Color.white ∧ (s.ctxOf sid).playerRole = some Color.white) ∨
             (E.turn g.chess = Color.black ∧ (s.ctxOf sid).playerRole = some Color.black))) :
    step E s sid (Command.move mv) now =
      (s, [Output.emit sid (ServerEvent.invalidMove "Not your turn" mv)]) ∧
    step E (step E s sid (Command.move mv) now).1 sid (Command.move mv) now2 =
      (s, [Output.emit sid (ServerEvent.invalidMove "Not your turn" mv)]) := by
  have key : ∀ t : Int, step E s sid (Command.move mv) t =
      (s, [Output.emit sid (ServerEvent.invalidMove "Not your turn" mv)]) := by
    intro t
    simp only [step]
    unfold handleMove
    simp only []
    rw [hg]
    simp only []
    rw [hl]
    simp only []
    rw [if_pos hr]
  refine ⟨key now, ?_⟩
  rw [key now]
  exact key now2

/-- Witness for C1: in the two-player session g with zero moves played, Black's
connection B submits a move while White is to move. -/
theorem C1_witness :
    step toyEngine (run toyEngine ServerState.empty
        [("A", Command.joinGame "g", 0), ("B", Command.joinGame "g", 0)]).1
      "B" (Command.move mvE2E4) 5 =
      ((run toyEngine ServerState.empty
        [("A", Command.joinGame "g", 0), ("B", Command.joinGame "g", 0)]).1,
       [Output.emit "B" (ServerEvent.invalidMove "Not your turn" mvE2E4)]) :=
  (C1_not_your_turn toyEngine
    (run toyEngine ServerState.empty
        [("A", Command.joinGame "g", 0), ("B", Command.joinGame "g", 0)]).1
    "B" "g"
    ((((ChessGame.new toyEngine "g" 0).addPlayer "A" Color.white).addPlayer
        "B" Color.black).startTimer 0)
    mvE2E4 5 7 rfl rfl (by decide)).1

/-- Counterexample for C1 as frozen: the rejection reason the code sends is
the string "Not your turn", not the spec's literal "not your turn". -/
theorem C1_counterexample :
    (step toyEngine (run toyEngine ServerState.empty
        [("A", Command.joinGame "g", 0), ("B", Command.joinGame "g", 0)]).1
      "B" (Command.move mvE2E4) 5).2 =
      [Output.emit "B" (ServerEvent.invalidMove "Not your turn" mvE2E4)] ∧
    ¬ ((step toyEngine (run toyEngine ServerState.empty
        [("A", Command.joinGame "g", 0), ("B", Command.joinGame "g", 0)]).1
      "B" (Command.move mvE2E4) 5).2 =
      [Output.emit "B" (ServerEvent.invalidMove "not your turn" mvE2E4)]) := by
  constructor
  · rfl
  · decide

theorem updateTimer_whiteTurn {E : Engine σ} {g : ChessGame σ} (now : Int)
    (h : E.turn g.chess = Color.white) :
    g.updateTimer E now =
      { g with blackTimer := g.blackTimer - (now - g.lastMoveTime), lastMoveTime := now } := by
  unfold ChessGame.updateTimer
  rw [if_pos h]

theorem updateTimer_blackTurn {E : Engine σ} {g : ChessGame σ} (now : Int)
    (h : E.turn g.chess = Color.black) :
    g.updateTimer E now =
      { g with whiteTimer := g.whiteTimer - (now - g.lastMoveTime), lastMoveTime := now } := by
  unfold ChessGame.updateTimer
  rw [if_neg (by rw [h]; exact fun hc => Color.noConfusion hc)]

/-- C3: a turn-validated move that the rules engine rejects as illegal, or that
makes the engine raise a fault, is answered with invalidMove to the originating
connection only — nothing is broadcast — and the returned server state is
exactly the previous one: board, move log, clocks and lastMoveTimestamp are
untouched and no clock time is charged. -/
theorem C3_rejected_move_no_mutation {σ : Type} (E : Engine σ) (s : ServerState σ)
    (sid gid : String) (g : ChessGame σ) (mv : MoveData) (now : Int)
    (hg : (s.ctxOf sid).currentGame = some gid)
    (hl : lookupA s.games gid = some g)
    (ht : (E.turn g.chess = Color.white ∧ (s.ctxOf sid).playerRole = some Color.white) ∨
          (E.turn g.chess = Color.black ∧ (s.ctxOf sid).playerRole = some Color.black)) :
    (E.move g.chess mv = EngineOutcome.illegal →
      step E s sid (Command.move mv) now =
        (s, [Output.emit sid (ServerEvent.invalidMove "Illegal move" mv)])) ∧
    (∀ msg, E.move g.chess mv = EngineOutcome.fault msg →
      step E s sid (Command.move mv) now =
        (s, [Output.emit sid (ServerEvent.invalidMove msg mv)])) := by
  constructor
  · intro hmv
    have hmk : g.makeMove E mv now = .ok (none, g) := by
      unfold ChessGame.makeMove
      rw [hmv]
    simp only [step]
    unfold handleMove
    simp only []
    rw [hg]
    simp only []
    rw [hl]
    simp only []
    rw [if_neg (not_not_intro ht), hmk]
  · intro msg hmv
    have hmk : g.makeMove E mv now = .error msg := by
      unfold ChessGame.makeMove
      rw [hmv]
    simp only [step]
    unfold handleMove
    simp only []
    rw [hg]
    simp only []
    rw [hl]
    simp only []
    rw [if_neg (not_not_intro ht), hmk]

/-- Witness for C3: in the two-player session with White to move, White submits
a move the toy engine rejects, then one that makes it raise a fault. -/
theorem C3_witness :
    (step toyEngine (run toyEngine ServerState.empty
        [("A", Command.joinGame "g", 0), ("B", Command.joinGame "g", 0)]).1
      "A" (Command.move mvIllegal) 5 =
      ((run toyEngine ServerState.empty
        [("A", Command.joinGame "g", 0), ("B", Command.joinGame "g", 0)]).1,
       [Output.emit "A" (ServerEvent.invalidMove "Illegal move" mvIllegal)])) ∧
    (step toyEngine (run toyEngine ServerState.empty
        [("A", Command.joinGame "g", 0), ("B", Command.joinGame "g", 0)]).1
      "A" (Command.move mvFault) 5 =
      ((run toyEngine ServerState.empty
        [("A", Command.joinGame "g", 0), ("B", Command.joinGame "g", 0)]).1,
       [Output.emit "A" (ServerEvent.invalidMove "boom" mvFault)])) := by
  constructor
  · exact (C3_rejected_move_no_mutation toyEngine
      (run toyEngine ServerState.empty
        [("A", Command.joinGame "g", 0), ("B", Command.joinGame "g", 0)]).1
      "A" "g"
      ((((ChessGame.new toyEngine "g" 0).addPlayer "A" Color.white).addPlayer
          "B" Color.black).startTimer 0)
      mvIllegal 5 rfl rfl (by decide)).1 rfl
  · exact (C3_rejected_move_no_mutation toyEngine
      (run toyEngine ServerState.empty
        [("A", Command.joinGame "g", 0), ("B", Command.joinGame "g", 0)]).1
      "A" "g"
      ((((ChessGame.new toyEngine "g" 0).addPlayer "A" Color.white).addPlayer
          "B" Color.black).startTimer 0)
      mvFault 5 rfl rfl (by decide)).2 "boom" rfl

/-- Inversion of an accepted makeMove at field level: the engine accepted, one
entry was appended, lastMoveTime became now, and the side whose turn it is NOT
after the move (the mover) was charged elapsed = now - lastMoveTime. -/
theorem makeMove_fields {E : Engine σ} {g : ChessGame σ} {mv : MoveData} {now : Int}
    {res : String} {g1 : ChessGame σ} (h : g.makeMove E mv now = .ok (some res, g1)) :
    ∃ next, E.move g.chess mv = .legal res next ∧ g1.chess = next ∧
      g1.moveHistory = g.moveHistory ++ [⟨res, E.fen next, now⟩] ∧
      g1.lastMoveTime = now ∧
      (E.turn next = Color.white →
        g1.blackTimer = g.blackTimer - (now - g.lastMoveTime) ∧ g1.whiteTimer = g.whiteTimer) ∧
      (E.turn next = Color.black →
        g1.whiteTimer = g.whiteTimer - (now - g.lastMoveTime) ∧ g1.blackTimer = g.blackTimer) := by
  obtain ⟨next, hlegal, hg1⟩ := makeMove_ok_some h
  subst hg1
  refine ⟨next, hlegal, by simp, by simp, by simp, ?_, ?_⟩
  · intro hw
    unfold ChessGame.updateTimer
    split
    · exact ⟨rfl, rfl⟩
    next hcond => exact absurd hw hcond
  · intro hb
    unfold ChessGame.updateTimer
    split
    next hcond =>
      rw [show E.turn next = Color.white from hcond] at hb
      cases hb
    · exact ⟨rfl, rfl⟩

/-- C6: for every accepted move, the clock of the side that just moved is
decremented by exactly now − lastMoveTimestamp and lastMoveTimestamp becomes
now, while the opponent's clock is unchanged; with a monotone wall clock both
clocks are non-increasing across the accepted move. Assumes the engine flips
the turn on accepted moves (chess.js does). -/
theorem C6_clock_accounting {σ : Type} (E : Engine σ)
    (hE : ∀ st mv res st2, E.move st mv = .legal res st2 → E.turn st2 = (E.turn st).other)
    (g : ChessGame σ) (mv : MoveData) (now : Int) (res : String) (g1 : ChessGame σ)
    (h : g.makeMove E mv now = .ok (some res, g1)) :
    g1.lastMoveTime = now ∧
    (E.turn g.chess = Color.white →
      g1.whiteTimer = g.whiteTimer - (now - g.lastMoveTime) ∧ g1.blackTimer = g.blackTimer) ∧
    (E.turn g.chess = Color.black →
      g1.blackTimer = g.blackTimer - (now - g.lastMoveTime) ∧ g1.whiteTimer = g.whiteTimer) ∧
    (g.lastMoveTime ≤ now → g1.whiteTimer ≤ g.whiteTimer ∧ g1.blackTimer ≤ g.blackTimer) := by
  obtain ⟨next, hlegal, _, _, hlast, hwhen, hbwhen⟩ := makeMove_fields h
  have hturn : E.turn next = (E.turn g.chess).other := hE _ _ _ _ hlegal
  refine ⟨hlast, ?_, ?_, ?_⟩
  · intro hcol
    rw [hcol] at hturn
    obtain ⟨h1, h2⟩ := hbwhen hturn
    exact ⟨h1, h2⟩
  · intro hcol
    rw [hcol] at hturn
    obtain ⟨h1, h2⟩ := hwhen hturn
    exact ⟨h1, h2⟩
  · intro hm
    cases hcol : E.turn g.chess
    · rw [hcol] at hturn
      obtain ⟨h1, h2⟩ := hbwhen hturn
      omega
    · rw [hcol] at hturn
      obtain ⟨h1, h2⟩ := hwhen hturn
      omega

/-- Witness for C6: the toy engine accepts mvE2E4 at time 5 on a fresh game
created at time 0; White is charged 5 ms and Black's clock is unchanged. -/
theorem C6_witness :
    c2wGame1.lastMoveTime = 5 ∧
    (toyEngine.turn (ChessGame.new toyEngine "g" 0).chess = Color.white →
      c2wGame1.whiteTimer = (ChessGame.new toyEngine "g" 0).whiteTimer -
          (5 - (ChessGame.new toyEngine "g" 0).lastMoveTime) ∧
      c2wGame1.blackTimer = (ChessGame.new toyEngine "g" 0).blackTimer) ∧
    (toyEngine.turn (ChessGame.new toyEngine "g" 0).chess = Color.black →
      c2wGame1.blackTimer = (ChessGame.new toyEngine "g" 0).blackTimer -
          (5 - (ChessGame.new toyEngine "g" 0).lastMoveTime) ∧
      c2wGame1.whiteTimer = (ChessGame.new toyEngine "g" 0).whiteTimer) ∧
    ((ChessGame.new toyEngine "g" 0).lastMoveTime ≤ 5 →
      c2wGame1.whiteTimer ≤ (ChessGame.new toyEngine "g" 0).whiteTimer ∧
      c2wGame1.blackTimer ≤ (ChessGame.new toyEngine "g" 0).blackTimer) :=
  C6_clock_accounting toyEngine toyEngine_TurnFaithful.2
    (ChessGame.new toyEngine "g" 0) mvE2E4 5 "e2e4" c2wGame1 rfl

/-- C7: an acceptDraw from any joined connection unconditionally broadcasts
game-over(draw, reason "agreement") to the whole session — no pending-offer
check exists — and no session state is mutated. -/
theorem C7_acceptDraw_unconditional {σ : Type} (E : Engine σ) (s : ServerState σ)
    (sid gid : String) (now : Int)
    (hg : (s.ctxOf sid).currentGame = some gid) :
    step E s sid Command.acceptDraw now =
      (s, [Output.broadcast gid (ServerEvent.gameOver "draw" none (some "agreement"))]) := by
  simp only [step]
  unfold handleAcceptDraw
  simp only []
  rw [hg]

/-- Witness for C7: spectator C, with no offerDraw ever sent, triggers the
draw-by-agreement broadcast in session g. -/
theorem C7_witness :
    step toyEngine (run toyEngine ServerState.empty
        [("A", Command.joinGame "g", 0), ("B", Command.joinGame "g", 0),
         ("C", Command.joinGame "g", 0)]).1 "C" Command.acceptDraw 9 =
      ((run toyEngine ServerState.empty
        [("A", Command.joinGame "g", 0), ("B", Command.joinGame "g", 0),
         ("C", Command.joinGame "g", 0)]).1,
       [Output.broadcast "g" (ServerEvent.gameOver "draw" none (some "agreement"))]) :=
  C7_acceptDraw_unconditional toyEngine
    (run toyEngine ServerState.empty
        [("A", Command.joinGame "g", 0), ("B", Command.joinGame "g", 0),
         ("C", Command.joinGame "g", 0)]).1 "C" "g" 9 rfl

/-- The fresh game produced by acceptRematch from a previous game g at time now:
initial rules state, empty move log, both clocks back to 600000 ms,
lastMoveTime restarted. Players and spectators are untouched. -/
def resetGame (E : Engine σ) (g : ChessGame σ) (now : Int) : ChessGame σ :=
  { g with chess := E.init
           moveHistory := []
           whiteTimer := 600000
           blackTimer := 600000
           lastMoveTime := now }

/-- C8: an acceptRematch from any joined connection, in any phase, resets the
rules state to the initial position, clears the move log, resets both clocks
to 600000 ms, restarts the clock accountant (lastMoveTimestamp = now) and
broadcasts gameReset carrying the fresh game state to the whole session. -/
theorem C8_acceptRematch_reset {σ : Type} (E : Engine σ) (s : ServerState σ)
    (sid gid : String) (g : ChessGame σ) (now : Int)
    (hg : (s.ctxOf sid).currentGame = some gid)
    (hl : lookupA s.games gid = some g) :
    step E s sid Command.acceptRematch now =
      ({ s with games := setA s.games gid (resetGame E g now) },
       [Output.broadcast gid (ServerEvent.gameReset
          (ChessGame.getGameState E (resetGame E g now)))]) := by
  simp only [step]
  unfold handleAcceptRematch
  simp only []
  rw [hg]
  simp only []
  rw [hl]
  rfl

/-- Witness for C8: after a full game-over (A resigns), B's acceptRematch resets
session g to the fresh state with both clocks at 600000 ms. -/
theorem C8_witness :
    step toyEngine (run toyEngine ServerState.empty
        [("A", Command.joinGame "g", 0), ("B", Command.joinGame "g", 0),
         ("A", Command.resign, 1)]).1 "B" Command.acceptRematch 7 =
      ({ (run toyEngine ServerState.empty
          [("A", Command.joinGame "g", 0), ("B", Command.joinGame "g", 0),
           ("A", Command.resign, 1)]).1 with
         games := setA (run toyEngine ServerState.empty
            [("A", Command.joinGame "g", 0), ("B", Command.joinGame "g", 0),
             ("A", Command.resign, 1)]).1.games "g"
           (resetGame toyEngine
             ((((ChessGame.new toyEngine "g" 0).addPlayer "A" Color.white).addPlayer
                 "B" Color.black).startTimer 0) 7) },
       [Output.broadcast "g" (ServerEvent.gameReset (ChessGame.getGameState toyEngine
          (resetGame toyEngine
            ((((ChessGame.new toyEngine "g" 0).addPlayer "A" Color.white).addPlayer
                "B" Color.black).startTimer 0) 7)))]) :=
  C8_acceptRematch_reset toyEngine
    (run toyEngine ServerState.empty
        [("A", Command.joinGame "g", 0), ("B", Command.joinGame "g", 0),
         ("A", Command.resign, 1)]).1 "B" "g"
    ((((ChessGame.new toyEngine "g" 0).addPlayer "A" Color.white).addPlayer
        "B" Color.black).startTimer 0) 7 rfl rfl

theorem lookupA_setA_isSome {l : List (String × α)} {k2 : String} {g2 : α}
    (h : lookupA l k2 = some g2) (k : String) (v : α) :
    ∃ g3, lookupA (setA l k v) k2 = some g3 := by
  rw [lookupA_setA]
  by_cases he : k = k2
  · rw [if_pos he]; exact ⟨v, rfl⟩
  · rw [if_neg he]; exact ⟨g2, h⟩

/-- C9: after a disconnect of a joined connection, its session is removed from
the registry iff both player slots and the spectator set are empty once the
connection is vacated; the disconnect leaves every other session's registration
unchanged; and no command other than disconnect ever removes a registered
session from the registry. -/
theorem C9_registry_removal {σ : Type} (E : Engine σ) (s : ServerState σ)
    (sid gid : String) (g : ChessGame σ) (now : Int)
    (hg : (s.ctxOf sid).currentGame = some gid)
    (hl : lookupA s.games gid = some g) :
    (lookupA (step E s sid Command.disconnect now).1.games gid = none ↔
      ((g.removePlayer sid).whitePlayer = none ∧ (g.removePlayer sid).blackPlayer = none ∧
       (g.removePlayer sid).spectators = [])) ∧
    (∀ gid2, gid ≠ gid2 →
      lookupA (step E s sid Command.disconnect now).1.games gid2 = lookupA s.games gid2) ∧
    (∀ (sid2 : String) (c : Command) (now2 : Int), c ≠ Command.disconnect →
      ∀ gid2 g2, lookupA s.games gid2 = some g2 →
        ∃ g3, lookupA (step E s sid2 c now2).1.games gid2 = some g3) := by
  refine ⟨?_, ?_, ?_⟩
  · simp only [step]
    unfold handleDisconnect
    simp only []
    rw [hg]
    simp only []
    rw [hl]
    simp only []
    split
    next hcond =>
      simp only []
      rw [lookupA_delA, if_pos rfl]
      simp [hcond]
    next hcond =>
      simp only []
      rw [lookupA_setA, if_pos rfl]
      simp [hcond]
  · intro gid2 hne
    simp only [step]
    unfold handleDisconnect
    simp only []
    rw [hg]
    simp only []
    rw [hl]
    simp only []
    split
    · simp only []
      rw [lookupA_delA, if_neg hne]
    · simp only []
      rw [lookupA_setA, if_neg hne]
  · intro sid2 c now2 hc gid2 g2 hl2
    cases c with
    | disconnect => exact absurd rfl hc
    | joinGame gid0 =>
        simp only [step]
        unfold handleJoinGame
        simp only []
        rcases hl0 : lookupA s.games gid0 with _ | gg
        · simp only [ChessGame.new]
          exact lookupA_setA_isSome hl2 _ _
        · simp only []
          split
          · exact lookupA_setA_isSome hl2 _ _
          · split
            · exact lookupA_setA_isSome hl2 _ _
            · exact lookupA_setA_isSome hl2 _ _
    | move mv =>
        simp only [step]
        unfold handleMove
        simp only []
        split
        · exact ⟨g2, hl2⟩
        · split
          · exact ⟨g2, hl2⟩
          · split
            · exact ⟨g2, hl2⟩
            · split
              · exact ⟨g2, hl2⟩
              · exact ⟨g2, hl2⟩
              · exact lookupA_setA_isSome hl2 _ _
    | resign =>
        simp only [step]
        unfold handleResign
        simp only []
        split <;> exact ⟨g2, hl2⟩
    | offerDraw =>
        simp only [step]
        unfold handleOfferDraw
        simp only []
        split
        · split
          · exact ⟨g2, hl2⟩
          · split <;> exact ⟨g2, hl2⟩
        · exact ⟨g2, hl2⟩
    | acceptDraw =>
        simp only [step]
        unfold handleAcceptDraw
        simp only []
        split <;> exact ⟨g2, hl2⟩
    | requestRematch =>
        simp only [step]
        unfold handleRequestRematch
        simp only []
        split
        · exact ⟨g2, hl2⟩
        · split
          · exact ⟨g2, hl2⟩
          · split <;> exact ⟨g2, hl2⟩
    | acceptRematch =>
        simp only [step]
        unfold handleAcceptRematch
        simp only []
        split
        · exact ⟨g2, hl2⟩
        · split
          · exact ⟨g2, hl2⟩
          · exact lookupA_setA_isSome hl2 _ _
    | chatMessage text =>
        simp only [step]
        unfold handleChatMessage
        simp only []
        split <;> exact ⟨g2, hl2⟩

/-- Witness for C9: A disconnects from the two-player session g; Black (B) is
still seated, so g stays registered, other sessions are untouched, and no
non-disconnect command removes a session. -/
theorem C9_witness :
    (lookupA (step toyEngine (run toyEngine ServerState.empty
        [("A", Command.joinGame "g", 0), ("B", Command.joinGame "g", 0)]).1
        "A" Command.disconnect 3).1.games "g" = none ↔
      ((((((ChessGame.new toyEngine "g" 0).addPlayer "A" Color.white).addPlayer
          "B" Color.black).startTimer 0).removePlayer "A").whitePlayer = none ∧
       (((((ChessGame.new toyEngine "g" 0).addPlayer "A" Color.white).addPlayer
          "B" Color.black).startTimer 0).removePlayer "A").blackPlayer = none ∧
       (((((ChessGame.new toyEngine "g" 0).addPlayer "A" Color.white).addPlayer
          "B" Color.black).startTimer 0).removePlayer "A").spectators = [])) ∧
    (∀ gid2, "g" ≠ gid2 →
      lookupA (step toyEngine (run toyEngine ServerState.empty
        [("A", Command.joinGame "g", 0), ("B", Command.joinGame "g", 0)]).1
        "A" Command.disconnect 3).1.games gid2 =
      lookupA (run toyEngine ServerState.empty
        [("A", Command.joinGame "g", 0), ("B", Command.joinGame "g", 0)]).1.games gid2) ∧
    (∀ (sid2 : String) (c : Command) (now2 : Int), c ≠ Command.disconnect →
      ∀ gid2 g2, lookupA (run toyEngine ServerState.empty
        [("A", Command.joinGame "g", 0), ("B", Command.joinGame "g", 0)]).1.games gid2 = some g2 →
        ∃ g3, lookupA (step toyEngine (run toyEngine ServerState.empty
          [("A", Command.joinGame "g", 0), ("B", Command.joinGame "g", 0)]).1
          sid2 c now2).1.games gid2 = some g3) :=
  C9_registry_removal toyEngine
    (run toyEngine ServerState.empty
        [("A", Command.joinGame "g", 0), ("B", Command.joinGame "g", 0)]).1
    "A" "g"
    ((((ChessGame.new toyEngine "g" 0).addPlayer "A" Color.white).addPlayer
        "B" Color.black).startTimer 0) 3 rfl rfl

/-- C10: acceptDraw and acceptRematch carry no role precondition — a joined
connection holding no player role (a spectator) triggers the full
draw-by-agreement broadcast and the full rematch reset — while resign and
offerDraw from a connection with no player role are silently ignored: no
reply, no state change. -/
theorem C10_role_preconditions {σ : Type} (E : Engine σ) (s : ServerState σ)
    (sid gid : String) (g : ChessGame σ) (now : Int)
    (hg : (s.ctxOf sid).currentGame = some gid)
    (hrole : (s.ctxOf sid).playerRole = none)
    (hl : lookupA s.games gid = some g) :
    step E s sid Command.resign now = (s, []) ∧
    step E s sid Command.offerDraw now = (s, []) ∧
    step E s sid Command.acceptDraw now =
      (s, [Output.broadcast gid (ServerEvent.gameOver "draw" none (some "agreement"))]) ∧
    step E s sid Command.acceptRematch now =
      ({ s with games := setA s.games gid (resetGame E g now) },
       [Output.broadcast gid (ServerEvent.gameReset
          (ChessGame.getGameState E (resetGame E g now)))]) := by
  refine ⟨?_, ?_, ?_, ?_⟩
  · simp only [step]
    unfold handleResign
    simp only []
    rw [hg, hrole]
  · simp only [step]
    unfold handleOfferDraw
    simp only []
    rw [hg, hrole]
  · simp only [step]
    unfold handleAcceptDraw
    simp only []
    rw [hg]
  · simp only [step]
    unfold handleAcceptRematch
    simp only []
    rw [hg]
    simp only []
    rw [hl]
    rfl

/-- Witness for C10: spectator C in the three-member session g has
currentGame set and no player role; the four behaviors are evaluated there. -/
theorem C10_witness :
    step toyEngine (run toyEngine ServerState.empty
        [("A", Command.joinGame "g", 0), ("B", Command.joinGame "g", 0),
         ("C", Command.joinGame "g", 0)]).1 "C" Command.resign 9 =
      ((run toyEngine ServerState.empty
        [("A", Command.joinGame "g", 0), ("B", Command.joinGame "g", 0),
         ("C", Command.joinGame "g", 0)]).1, []) ∧
    step toyEngine (run toyEngine ServerState.empty
        [("A", Command.joinGame "g", 0), ("B", Command.joinGame "g", 0),
         ("C", Command.joinGame "g", 0)]).1 "C" Command.offerDraw 9 =
      ((run toyEngine ServerState.empty
        [("A", Command.joinGame "g", 0), ("B", Command.joinGame "g", 0),
         ("C", Command.joinGame "g", 0)]).1, []) ∧
    step toyEngine (run toyEngine ServerState.empty
        [("A", Command.joinGame "g", 0), ("B", Command.joinGame "g", 0),
         ("C", Command.joinGame "g", 0)]).1 "C" Command.acceptDraw 9 =
      ((run toyEngine ServerState.empty
        [("A", Command.joinGame "g", 0), ("B", Command.joinGame "g", 0),
         ("C", Command.joinGame "g", 0)]).1,
       [Output.broadcast "g" (ServerEvent.gameOver "draw" none (some "agreement"))]) ∧
    step toyEngine (run toyEngine ServerState.empty
        [("A", Command.joinGame "g", 0), ("B", Command.joinGame "g", 0),
         ("C", Command.joinGame "g", 0)]).1 "C" Command.acceptRematch 9 =
      ({ (run toyEngine ServerState.empty
          [("A", Command.joinGame "g", 0), ("B", Command.joinGame "g", 0),
           ("C", Command.joinGame "g", 0)]).1 with
         games := setA (run toyEngine ServerState.empty
            [("A", Command.joinGame "g", 0), ("B", Command.joinGame "g", 0),
             ("C", Command.joinGame "g", 0)]).1.games "g"
           (resetGame toyEngine
             (((((ChessGame.new toyEngine "g" 0).addPlayer "A" Color.white).addPlayer
                 "B" Color.black).startTimer 0).addSpectator "C") 9) },
       [Output.broadcast "g" (ServerEvent.gameReset (ChessGame.getGameState toyEngine
          (resetGame toyEngine
            (((((ChessGame.new toyEngine "g" 0).addPlayer "A" Color.white).addPlayer
                "B" Color.black).startTimer 0).addSpectator "C") 9)))]) :=
  C10_role_preconditions toyEngine
    (run toyEngine ServerState.empty
        [("A", Command.joinGame "g", 0), ("B", Command.joinGame "g", 0),
         ("C", Command.joinGame "g", 0)]).1 "C" "g"
    (((((ChessGame.new toyEngine "g" 0).addPlayer "A" Color.white).addPlayer
        "B" Color.black).startTimer 0).addSpectator "C") 9 rfl rfl rfl

/-- Recognizer for a game-over broadcast among emitted outputs. -/
def isGameOverOutput : Output → Bool
  | Output.broadcast _ (ServerEvent.gameOver _ _ _) => true
  | _ => false

/-- Recognizer for a gameStart broadcast among emitted outputs. -/
def isGameStartOutput : Output → Bool
  | Output.broadcast _ ServerEvent.gameStart => true
  | _ => false

/-- The concrete game stored for session g after the trace: A joins, B joins,
A resigns, then A plays mvE2E4 at time 2 (accepted by the toy engine). -/
def c4wGame1 : ChessGame Nat :=
  { gameId := "g", chess := 1, whitePlayer := some "A", blackPlayer := some "B",
    spectators := [], moveHistory := [⟨"e2e4", "1", 2⟩], gameStartTime := 0,
    whiteTimer := 599998, blackTimer := 600000, lastMoveTime := 2 }

/-- C4 (amended): the server tracks no Finished phase, so an earlier game-over
broadcast (resignation, draw agreement, or a rules-derived one) does not block
later moves: whenever a joined connection's role matches the side to move and
the engine accepts the move, the move command appends exactly one entry to the
session's move log; only turn ownership and engine legality gate acceptance. -/
theorem C4_no_finished_phase {σ : Type} (E : Engine σ) (s : ServerState σ)
    (sid gid : String) (g : ChessGame σ) (mv : MoveData) (now : Int)
    (res : String) (next : σ)
    (hg : (s.ctxOf sid).currentGame = some gid)
    (hl : lookupA s.games gid = some g)
    (ht : (E.turn g.chess = Color.white ∧ (s.ctxOf sid).playerRole = some Color.white) ∨
          (E.turn g.chess = Color.black ∧ (s.ctxOf sid).playerRole = some Color.black))
    (hlegal : E.move g.chess mv = .legal res next) :
    lookupA (step E s sid (Command.move mv) now).1.games gid =
      some (ChessGame.updateTimer E
        { g with chess := next,
                 moveHistory := g.moveHistory ++ [⟨res, E.fen next, now⟩] } now) ∧
    (ChessGame.updateTimer E
        { g with chess := next,
                 moveHistory := g.moveHistory ++ [⟨res, E.fen next, now⟩] } now).moveHistory.length
      = g.moveHistory.length + 1 := by
  have hmk : g.makeMove E mv now = .ok (some res, ChessGame.updateTimer E
      { g with chess := next,
               moveHistory := g.moveHistory ++ [⟨res, E.fen next, now⟩] } now) := by
    unfold ChessGame.makeMove
    rw [hlegal]
  constructor
  · simp only [step]
    unfold handleMove
    simp only []
    rw [hg]
    simp only []
    rw [hl]
    simp only []
    rw [if_neg (not_not_intro ht), hmk]
    simp only []
    rw [lookupA_setA, if_pos rfl]
  · simp

/-- Witness for C4: after the game-over broadcast caused by A's resignation,
A's legal move is still accepted and appends to session g's move log. -/
theorem C4_witness :
    lookupA (step toyEngine (run toyEngine ServerState.empty
        [("A", Command.joinGame "g", 0), ("B", Command.joinGame "g", 0),
         ("A", Command.resign, 1)]).1 "A" (Command.move mvE2E4) 2).1.games "g" =
      some c4wGame1 ∧
    c4wGame1.moveHistory.length =
      ((((ChessGame.new toyEngine "g" 0).addPlayer "A" Color.white).addPlayer
          "B" Color.black).startTimer 0).moveHistory.length + 1 :=
  C4_no_finished_phase toyEngine
    (run toyEngine ServerState.empty
        [("A", Command.joinGame "g", 0), ("B", Command.joinGame "g", 0),
         ("A", Command.resign, 1)]).1 "A" "g"
    ((((ChessGame.new toyEngine "g" 0).addPlayer "A" Color.white).addPlayer
        "B" Color.black).startTimer 0)
    mvE2E4 2 "e2e4" 1 rfl rfl (by decide) rfl

/-- Counterexample for C4 as frozen: the trace join A, join B, resign A emits a
game-over broadcast (the session is Finished in the spec's sense), its move log
is empty, and yet A's subsequent move command is accepted and appends an entry. -/
theorem C4_counterexample :
    ((run toyEngine ServerState.empty
        [("A", Command.joinGame "g", 0), ("B", Command.joinGame "g", 0),
         ("A", Command.resign, 1)]).2.any isGameOverOutput = true) ∧
    (((lookupA (run toyEngine ServerState.empty
        [("A", Command.joinGame "g", 0), ("B", Command.joinGame "g", 0),
         ("A", Command.resign, 1)]).1.games "g").map
        (fun g => g.moveHistory.length)).getD 99 = 0) ∧
    (((lookupA (step toyEngine (run toyEngine ServerState.empty
        [("A", Command.joinGame "g", 0), ("B", Command.joinGame "g", 0),
         ("A", Command.resign, 1)]).1 "A" (Command.move mvE2E4) 2).1.games "g").map
        (fun g => g.moveHistory.length)).getD 99 = 1) := by
  refine ⟨rfl, rfl, rfl⟩

/-- C5 (amended): role assignment is by slot order — a joiner takes White if
that slot is free, else Black if the black slot is free, else becomes a
spectator — and exactly the joins that fill the Black slot start the clock and
broadcast gameStart; gameStart therefore fires once per fill of the Black slot,
which is once per session only while no player slot is vacated and refilled. -/
theorem C5_join_role_policy {σ : Type} (E : Engine σ) (s : ServerState σ)
    (sid gid : String) (g : ChessGame σ) (now : Int)
    (hl : lookupA s.games gid = some g) :
    (g.whitePlayer = none →
      step E s sid (Command.joinGame gid) now =
        ({ games := setA s.games gid (g.addPlayer sid Color.white),
           conns := setA s.conns sid
             { currentGame := some gid, playerRole := some Color.white } },
         [Output.emit sid (ServerEvent.playerRole Color.white),
          Output.emit sid (ServerEvent.gameState ((g.addPlayer sid Color.white).getGameState E)),
          Output.broadcast gid (ServerEvent.playersUpdate
            (g.addPlayer sid Color.white).whitePlayer.isSome
            (g.addPlayer sid Color.white).blackPlayer.isSome
            (g.addPlayer sid Color.white).spectators.length)])) ∧
    (∀ w, g.whitePlayer = some w → g.blackPlayer = none →
      step E s sid (Command.joinGame gid) now =
        ({ games := setA s.games gid ((g.addPlayer sid Color.black).startTimer now),
           conns := setA s.conns sid
             { currentGame := some gid, playerRole := some Color.black } },
         [Output.emit sid (ServerEvent.playerRole Color.black),
          Output.broadcast gid ServerEvent.gameStart,
          Output.emit sid (ServerEvent.gameState
            (((g.addPlayer sid Color.black).startTimer now).getGameState E)),
          Output.broadcast gid (ServerEvent.playersUpdate
            ((g.addPlayer sid Color.black).startTimer now).whitePlayer.isSome
            ((g.addPlayer sid Color.black).startTimer now).blackPlayer.isSome
            ((g.addPlayer sid Color.black).startTimer now).spectators.length)])) ∧
    (∀ w b, g.whitePlayer = some w → g.blackPlayer = some b →
      step E s sid (Command.joinGame gid) now =
        ({ games := setA s.games gid (g.addSpectator sid),
           conns := setA s.conns sid
             { currentGame := some gid, playerRole := (s.ctxOf sid).playerRole } },
         [Output.emit sid ServerEvent.spectatorRole,
          Output.emit sid (ServerEvent.gameState ((g.addSpectator sid).getGameState E)),
          Output.broadcast gid (ServerEvent.playersUpdate
            (g.addSpectator sid).whitePlayer.isSome
            (g.addSpectator sid).blackPlayer.isSome
            (g.addSpectator sid).spectators.length)])) := by
  refine ⟨?_, ?_, ?_⟩
  · intro hw
    simp only [step]
    unfold handleJoinGame
    simp only []
    rw [hl]
    simp only []
    rw [hw]
  · intro w hw hb
    simp only [step]
    unfold handleJoinGame
    simp only []
    rw [hl]
    simp only []
    rw [hw]
    simp only []
    rw [hb]
  · intro w b hw hb
    simp only [step]
    unfold handleJoinGame
    simp only []
    rw [hl]
    simp only []
    rw [hw]
    simp only []
    rw [hb]

/-- Witness for C5: B joins session g where A already holds White; B is
assigned Black, the clock starts, and gameStart is broadcast. -/
theorem C5_witness :
    step toyEngine (run toyEngine ServerState.empty
        [("A", Command.joinGame "g", 0)]).1 "B" (Command.joinGame "g") 0 =
      ({ games := setA (run toyEngine ServerState.empty
            [("A", Command.joinGame "g", 0)]).1.games "g"
           ((((ChessGame.new toyEngine "g" 0).addPlayer "A" Color.white).addPlayer
               "B" Color.black).startTimer 0),
         conns := setA (run toyEngine ServerState.empty
            [("A", Command.joinGame "g", 0)]).1.conns "B"
           { currentGame := some "g", playerRole := some Color.black } },
       [Output.emit "B" (ServerEvent.playerRole Color.black),
        Output.broadcast "g" ServerEvent.gameStart,
        Output.emit "B" (ServerEvent.gameState
          (((((ChessGame.new toyEngine "g" 0).addPlayer "A" Color.white).addPlayer
              "B" Color.black).startTimer 0).getGameState toyEngine)),
        Output.broadcast "g" (ServerEvent.playersUpdate
          ((((ChessGame.new toyEngine "g" 0).addPlayer "A" Color.white).addPlayer
              "B" Color.black).startTimer 0).whitePlayer.isSome
          ((((ChessGame.new toyEngine "g" 0).addPlayer "A" Color.white).addPlayer
              "B" Color.black).startTimer 0).blackPlayer.isSome
          ((((ChessGame.new toyEngine "g" 0).addPlayer "A" Color.white).addPlayer
              "B" Color.black).startTimer 0).spectators.length)]) :=
  (C5_join_role_policy toyEngine
    (run toyEngine ServerState.empty [("A", Command.joinGame "g", 0)]).1
    "B" "g" ((ChessGame.new toyEngine "g" 0).addPlayer "A" Color.white) 0 rfl).2.1
    "A" rfl rfl

/-- Counterexample for C5 as frozen: in a single session the gameStart
broadcast fires twice — once when B fills the Black slot and again when, after
B disconnects, C refills it — refuting that the WaitingForPlayers→Active
transition occurs exactly once per session. -/
theorem C5_counterexample :
    ((run toyEngine ServerState.empty
        [("A", Command.joinGame "g", 0), ("B", Command.joinGame "g", 0),
         ("B", Command.disconnect, 1), ("C", Command.joinGame "g", 2)]).2.filter
        isGameStartOutput).length = 2 := by
  rfl

end ChessSrv
